import Mathlib

/-!
Verification of the ningen client-side state mirror (diamondburned/ningen).

This file gives a shallow embedding, in Lean 4, of the parts of the Go source
that the specification's claims are about:

* `states/member/member.go` — `ComputeListID` (MurmurHash3 of permission
  overwrites), `onListUpdate` (the lazy member-list operation stream),
  `RequestMemberList` (subscription windows) and `RequestMember`;
* `states/read/read.go` — `markRead` / `MessageAck` and the `ReadState` query;
* `states/mute/mute.go` and `ningen.go` — the mute index and `MessageMentions`;
* `nstore/presence.go` — the presence store;
* `states/summary/summary.go` — `insertSummaries` and the summary handler.

Go machine integers are modelled as `Int` (`int`, `int64`) or as `Nat` with
explicit `% 2 ^ 32` where 32-bit overflow matters (MurmurHash3).  Go maps are
modelled as association lists queried with `List.lookup`.  Go slice *indexing*
(`s[i]`, bounds-checked against `len(s)`) is modelled by `Option`-returning
functions, `none` standing for the runtime panic.  Go *slicing* (`s[a:b]`,
bounds-checked against `cap(s)`) is only determined by the visible elements
when `b ≤ len(s)`; a slice reaching past the length behaves according to the
spare capacity of the backing array (a panic past `cap`, a silent capture of
stale backing-array contents within it), which the member-list model reports
as a distinct `capDependent` outcome instead of guessing.
-/

namespace Ningen

/-! ### Snowflakes

`discord.Snowflake` is an `int64`; the zero value and `NullSnowflake = -1` are
the invalid sentinels (`Snowflake.IsValid`). -/

abbrev Snowflake := Int

/-- Embedding of `Snowflake.IsValid` from arikawa: a snowflake is valid unless it is the
zero value or the null sentinel `-1`. -/
def snowflakeIsValid (s : Snowflake) : Bool :=
  !(s == 0 || s == -1)

/-- Embedding of `Snowflake.String()`: decimal rendering of the underlying `int64`
(`strconv.FormatInt(int64(s), 10)`). -/
def snowflakeString (s : Snowflake) : String :=
  if s < 0 then "-" ++ Nat.repr (-s).toNat else Nat.repr s.toNat

/-! ### MurmurHash3 (x86, 32-bit), as used by `twmb/murmur3.StringSum32`

All quantities are 32-bit words, kept as `Nat` reduced modulo `2 ^ 32`. -/

def w32 : Nat := 2 ^ 32

/-- The 32-bit left rotation. -/
def rotl32 (x r : Nat) : Nat :=
  (x <<< r) % w32 ||| (x >>> (32 - r))

/-- The per-block scramble of a 32-bit chunk `k1`. -/
def mixK1 (k1 : Nat) : Nat :=
  let k := (k1 * 0xcc9e2d51) % w32
  let k := rotl32 k 15
  (k * 0x1b873593) % w32

/-- The per-block update of the running hash `h1`. -/
def mixH1 (h1 k1 : Nat) : Nat :=
  let h := h1 ^^^ k1
  let h := rotl32 h 13
  (h * 5 + 0xe6546b64) % w32

/-- Consume the 4-byte little-endian blocks of the input, returning the
running hash and the remaining tail of fewer than 4 bytes. -/
def murmurBlocks : Nat → List Nat → Nat × List Nat
  | h1, b0 :: b1 :: b2 :: b3 :: rest =>
      murmurBlocks (mixH1 h1 (mixK1 (b0 ||| (b1 <<< 8) ||| (b2 <<< 16) ||| (b3 <<< 24)))) rest
  | h1, rest => (h1, rest)

/-- Assemble the 1–3 trailing bytes into a partial little-endian word. -/
def murmurTail : List Nat → Nat
  | [b0] => b0
  | [b0, b1] => b0 ||| (b1 <<< 8)
  | [b0, b1, b2] => b0 ||| (b1 <<< 8) ||| (b2 <<< 16)
  | _ => 0

/-- Final avalanche. -/
def fmix32 (h0 : Nat) : Nat :=
  let h := h0 ^^^ (h0 >>> 16)
  let h := (h * 0x85ebca6b) % w32
  let h := h ^^^ (h >>> 13)
  let h := (h * 0xc2b2ae35) % w32
  h ^^^ (h >>> 16)

/-- MurmurHash3 x86 32-bit with seed 0 over a byte sequence. -/
def murmur3Sum32 (bytes : List Nat) : Nat :=
  let (h1, tail) := murmurBlocks 0 bytes
  let h2 := if tail.isEmpty then h1 else h1 ^^^ mixK1 (murmurTail tail)
  fmix32 (h2 ^^^ (bytes.length % w32))

/-- UTF-8 encoding of a single character (all inputs in this development are
ASCII, but the full encoder is given). -/
def charUtf8 (c : Char) : List Nat :=
  let n := c.toNat
  if n < 0x80 then [n]
  else if n < 0x800 then
    [0xC0 ||| (n >>> 6), 0x80 ||| (n &&& 0x3F)]
  else if n < 0x10000 then
    [0xE0 ||| (n >>> 12), 0x80 ||| ((n >>> 6) &&& 0x3F), 0x80 ||| (n &&& 0x3F)]
  else
    [0xF0 ||| (n >>> 18), 0x80 ||| ((n >>> 12) &&& 0x3F),
     0x80 ||| ((n >>> 6) &&& 0x3F), 0x80 ||| (n &&& 0x3F)]

/-- The UTF-8 bytes of a string (`[]byte(s)` in Go). -/
def strBytes (s : String) : List Nat :=
  (s.data.map charUtf8).flatten

/-! ### `ComputeListID` (`states/member/member.go`) -/

/-- Embedding of `discord.PermissionViewChannel = 1 << 10`. -/
def permissionViewChannel : Nat := 0x400

/-- Embedding of `Permissions.Has(p)`: `perms & p == p`. -/
def permHas (perms p : Nat) : Bool :=
  perms &&& p == p

/-- A channel permission overwrite (`discord.Overwrite`), reduced to the
fields `ComputeListID` reads. -/
structure Overwrite where
  id : Snowflake
  allow : Nat
  deny : Nat
deriving DecidableEq, Repr

/-- The classification loop of `ComputeListID`: walk the overwrites in input
order, appending to `allows` when the allow bits grant view-channel, else to
`denies` when the deny bits revoke it (a `switch` with first-match wins). No
sorting is performed. -/
def collectOverwrites : List Overwrite → List Snowflake × List Snowflake
  | [] => ([], [])
  | o :: rest =>
      let (as, ds) := collectOverwrites rest
      if permHas o.allow permissionViewChannel then (o.id :: as, ds)
      else if permHas o.deny permissionViewChannel then (as, o.id :: ds)
      else (as, ds)

/-- Embedding of `ComputeListID`: `"everyone"` when no overwrite touches view-channel,
otherwise the decimal rendering of the 32-bit MurmurHash3 of
`"allow:<id>,...,deny:<id>,..."` (allows first, then denies, each in input
order). -/
def computeListID (overrides : List Overwrite) : String :=
  let (allows, denies) := collectOverwrites overrides
  if allows.isEmpty && denies.isEmpty then "everyone"
  else
    let input := String.intercalate ","
      (allows.map (fun a => "allow:" ++ snowflakeString a) ++
       denies.map (fun d => "deny:" ++ snowflakeString d))
    Nat.repr (murmur3Sum32 (strBytes input))

/-! ### The member-list operation stream (`onListUpdate`, `states/member/member.go`)

The slot vector `ml.items` is a Go slice of `gateway.GuildMemberListOpItem`
values; an item is "nil" when both its `Member` and `Group` fields are nil
(`ListItemIsNil` in `list.go`).  Indexing (`ml.items[i]`, bounds-checked
against the length) is modelled as `Option`-returning functions, `none`
standing for the panic.  The one *slicing* expression of the handler,
`INVALIDATE`'s capture `ml.items[start:end]`, is bounds-checked against the
backing array's capacity, which exceeds the length whenever `append` has
over-allocated or ops have shrunk the vector; when such a slice reaches past
the length its behaviour depends on that spare capacity — a panic past `cap`
(always the case on a fresh list, whose slot slice is nil with capacity 0), a
silent capture of stale backing-array contents within it — and the model
reports this as the distinct outcome `capDependent` instead of guessing. -/

/-- Embedding of `gateway.GuildMemberListOpItem`, reduced to identity-carrying payloads:
`member` stands for a non-nil `Member` (tagged by the user ID), `group` for a
non-nil `Group` (tagged by the group ID string). -/
structure ListItem where
  member : Option Int
  group : Option String
deriving DecidableEq, Repr

/-- The zero `GuildMemberListOpItem` (both pointers nil). -/
def nilItem : ListItem := ⟨none, none⟩

/-- Embedding of `ListItemIsNil` from `list.go`. -/
def listItemIsNil (it : ListItem) : Bool :=
  it.member.isNone && it.group.isNone

/-- Embedding of `gateway.GuildMemberListOp`, one constructor per recognised `op.Op`
string; each carries the fields the handler reads (`Range`, `Index`, `Item`,
`Items`). -/
inductive MLOp where
  | sync (start stop : Int) (items : List ListItem)
  | invalidate (start stop : Int) (items : List ListItem)
  | insert (index : Int) (item : ListItem)
  | update (index : Int) (item : ListItem)
  | delete (index : Int) (item : ListItem)
deriving DecidableEq, Repr

/-- Go slice read `s[i]` with an `int` index: panic (`none`) when out of
range. -/
def goGet (items : List ListItem) (i : Int) : Option ListItem :=
  if i < 0 then none else items.get? i.toNat

/-- Go slice write `s[i] = x`: panic (`none`) when out of range. -/
def goSet (items : List ListItem) (i : Int) (x : ListItem) : Option (List ListItem) :=
  if i < 0 ∨ (items.length : Int) ≤ i then none else some (items.set i.toNat x)

/-- Outcome of one op of the stream: a determined new state, a determined
runtime panic, or a capacity-dependent behaviour (`INVALIDATE` slicing past
the length: a panic past `cap`, a silent stale capture within it — never the
logged-and-skipped path). -/
inductive OpResult where
  | ok (items : List ListItem) (fwd : MLOp) (errored : Bool)
  | panic
  | capDependent
deriving DecidableEq, Repr

/-- Outcome of the whole op loop: the final vector with the written-back ops
and the error-callback count, a determined panic, or a capacity-dependent
outcome from which the model stops predicting. -/
inductive RunResult where
  | ok (items : List ListItem) (fwd : List MLOp) (errs : Nat)
  | panic
  | capDependent
deriving DecidableEq, Repr

/-- Embedding of `growItems`: pad the slot vector with zero items up to `maxLen`. -/
def growItems (items : List ListItem) (maxLen : Int) : List ListItem :=
  if maxLen ≤ (items.length : Int) then items
  else items ++ List.replicate (maxLen - items.length).toNat nilItem

/-- The `SYNC` write loop: `ml.items[start+i] = op.Items[i]` for each `i`;
panics propagate. -/
def syncWrite (items : List ListItem) (start : Int) : List ListItem → Option (List ListItem)
  | [] => some items
  | x :: xs =>
      match goSet items start x with
      | none => none
      | some items' => syncWrite items' (start + 1) xs

/-- The `INVALIDATE` zero loop: `ml.items[i] = zero` for `start ≤ i < stop`
bounded by the vector length (the loop condition is `i < end && i < len`). -/
def zeroRangeAux (start stop : Int) : List ListItem → Int → List ListItem
  | [], _ => []
  | x :: xs, j =>
      (if start ≤ j ∧ j < stop then nilItem else x) :: zeroRangeAux start stop xs (j + 1)

/-- Embedding of `INVALIDATE`'s nullification of the index range `[start, stop)` within
bounds. -/
def zeroRange (items : List ListItem) (start stop : Int) : List ListItem :=
  zeroRangeAux start stop items 0

/-- The bounds check guarding the indexed ops (`INSERT`/`UPDATE`/`DELETE`):
`length` is the vector length, plus one for `INSERT`; the op errors out when
`length == 0 || length <= op.Index`.  `SYNC`/`INVALIDATE` are `continue`d
before this check. -/
def indexedOutOfBounds (op : MLOp) (items : List ListItem) : Bool :=
  match op with
  | .insert i _ =>
      let length : Int := (items.length : Int) + 1
      length == 0 || decide (length ≤ i)
  | .update i _ =>
      let length : Int := (items.length : Int)
      length == 0 || decide (length ≤ i)
  | .delete i _ =>
      let length : Int := (items.length : Int)
      length == 0 || decide (length ≤ i)
  | _ => false

/-- One iteration of `onListUpdate`'s op loop.  `pos` is the position of the
op inside `ev.Ops` (the loop variable `i`).  The `ok` result carries the new
slot vector, the op as it is written back into `ev.Ops` for later handlers
(`INVALIDATE` captures the invalidated slice; `DELETE` records — per the
source — `ml.items[i]`, indexed by the loop position, not by `op.Index`), and
whether the out-of-range error callback fired.  `INVALIDATE`'s capture
`ml.items[start:end]` panics outright on a negative or inverted range and is
`capDependent` when `end` exceeds the length (see the section comment); all
other bounds violations are length-checked indexing, hence determined. -/
def opApply (pos : Nat) (items : List ListItem) (op : MLOp) : OpResult :=
  match op with
  | .sync start stop syncItems =>
      let grown := growItems items (stop + 1)
      match syncWrite grown start syncItems with
      | none => .panic
      | some items' => .ok items' op false
  | .invalidate start stop _ =>
      if start < 0 ∨ stop < start then .panic
      else if stop ≤ (items.length : Int) then
        .ok (zeroRange items start stop)
          (.invalidate start stop ((items.take stop.toNat).drop start.toNat)) false
      else .capDependent
  | .insert i it =>
      if indexedOutOfBounds op items then .ok items op true
      else if i < 0 then .panic
      else .ok (items.take i.toNat ++ it :: items.drop i.toNat) op false
  | .update i it =>
      if indexedOutOfBounds op items then .ok items op true
      else
        match goSet items i it with
        | none => .panic
        | some items' => .ok items' op false
  | .delete i it =>
      if indexedOutOfBounds (.delete i it) items then .ok items op true
      else
        match goGet items (pos : Int) with
        | none => .panic
        | some old =>
            if i < 0 then .panic
            else .ok (items.take i.toNat ++ items.drop (i.toNat + 1)) (.delete i old) false

/-- The op loop of `onListUpdate`: fold `opApply` over `ev.Ops`, threading the
loop position, collecting the written-back ops and counting error-callback
invocations; a panic aborts the whole handler, and a capacity-dependent
outcome stops the model's prediction. -/
def applyOpsAux (pos : Nat) (items : List ListItem) : List MLOp → RunResult
  | [] => .ok items [] 0
  | op :: rest =>
      match opApply pos items op with
      | .panic => .panic
      | .capDependent => .capDependent
      | .ok items' op' errored =>
          match applyOpsAux (pos + 1) items' rest with
          | .panic => .panic
          | .capDependent => .capDependent
          | .ok fin fops errs =>
              .ok fin (op' :: fops) ((if errored then 1 else 0) + errs)

/-- The cleanup step: truncate the maximal run of trailing nil items
(`for i := filledLen - 1; i >= 0 && ListItemIsNil(ml.items[i]); i--`). -/
def trimTrailingNils : List ListItem → List ListItem
  | [] => []
  | x :: xs =>
      let rest := trimTrailingNils xs
      if rest.isEmpty && listItemIsNil x then [] else x :: rest

/-- Embedding of `onListUpdate`, restricted to its effect on one list's slot vector: apply
all ops in order, then trim trailing nils.  Returns the final vector, the
written-back ops and the error count, or the panic / capacity-dependent
outcome of the loop. -/
def onListUpdateItems (items : List ListItem) (ops : List MLOp) : RunResult :=
  match applyOpsAux 0 items ops with
  | .panic => .panic
  | .capDependent => .capDependent
  | .ok fin fops errs => .ok (trimTrailingNils fin) fops errs

/-! ### `RequestMemberList` (`states/member/member.go`)

`RequestMemberList(guildID, channelID, chunk)` reads `minFetched[channelID]`
(the last requested chunk, modelled as `prior : Option Int`) and, when a
member list is already known, caps the request by `TotalVisible() / 100`
(`total0 : Option Nat`; `TotalVisible` is non-negative).  We model the
synchronous part: the updated `minFetched` entry and the returned `[][2]int`
window list (`none` for a `nil` return).  The asynchronous `GuildSubscribe`
call does not affect the return value. -/

/-- Embedding of `MaxMemberChunk = 3 - 1`. -/
def maxMemberChunk : Nat := 3 - 1

/-- The window-building loop: `{[i*100, i*100+99]}` for `i = s, s+1, …`,
`n` iterations. -/
def chunkWindows (s : Int) (n : Nat) : List (Int × Int) :=
  (List.range n).map (fun j => ((s + j) * 100, (s + j) * 100 + 99))

/-- The body of `RequestMemberList` after the `minFetched` lookup: `start` is
the looked-up previous chunk (0 when absent), `chunk0` the requested chunk,
`total` the capped total (−1 when no list is known).  Returns the new
`minFetched` value and the returned windows. -/
def requestCore (start chunk0 total : Int) :
    Option Int × Option (List (Int × Int)) :=
  let chunk1 := chunk0 + 1
  let chunk2 := if total > -1 ∧ chunk1 > total then total else chunk1
  if chunk2 < start then (some chunk0, none)
  else
    let s0 := chunk2 - (maxMemberChunk : Int)
    let s1 := if s0 < 1 then 1 else s0
    (some chunk0, some ((0, 99) :: chunkWindows s1 (chunk2 - s1).toNat))

/-- Embedding of `RequestMemberList` (state-level): early `nil` return when the requested
chunk equals the last fetched one, otherwise `requestCore`. -/
def requestMemberList (prior : Option Int) (total0 : Option Nat) (chunk : Int) :
    Option Int × Option (List (Int × Int)) :=
  let total : Int := match total0 with
    | none => -1
    | some t => ((t / 100 : Nat) : Int)
  match prior with
  | some start => if chunk = start then (some start, none) else requestCore start chunk total
  | none => requestCore 0 chunk total

/-! ### `RequestMember` (`states/member/member.go`)

`RequestMember(guildID, memberID)` checks the member store, then the guild's
`reqing` set, and otherwise marks the member as requested and fires one
`RequestGuildMembers` command carrying exactly `[]discord.UserID{memberID}`.
We model the member store and the `reqing` set as lists of `(guild, user)`
pairs and record each outbound command as `(guild, userIDs)`; the success
path of the asynchronous send is assumed (an error would roll the `reqing`
mark back). -/

/-- The state `RequestMember` reads and writes. -/
structure MemberReqState where
  stored : List (Int × Int)
  reqing : List (Int × Int)
  sent : List (Int × List Int)
deriving DecidableEq, Repr

/-- Embedding of `RequestMember`: no-op when the member is stored or already being
requested; otherwise mark it and send a single-ID request immediately.  There
is no timer and no batching of accumulated IDs. -/
def requestMember (st : MemberReqState) (g u : Int) : MemberReqState :=
  if (g, u) ∈ st.stored then st
  else if (g, u) ∈ st.reqing then st
  else { st with
    reqing := (g, u) :: st.reqing
    sent := st.sent ++ [(g, [u])] }

/-! ### The read-state engine (`states/read/read.go`)

`State.states` is a map `ChannelID → *gateway.ReadState`; the handler chain
mutates the pointed-to record in place.  We model the map as an association
list of values, a pointer update being a keyed replacement.  The Cabinet
lookups `markRead` performs (message author for the ack decision, channel for
the `UpdateEvent`'s guild ID) are modelled as association lists in a read
environment. -/

/-- Embedding of `gateway.ReadState`: the fields the engine touches. -/
structure ReadState where
  channelID : Int
  lastMessageID : Int
  mentionCount : Int
deriving DecidableEq, Repr

/-- The external state `markRead` consults: the self user ID, the known
messages' authors (keyed by channel and message) and the known channels'
guild IDs. -/
structure ReadEnv where
  selfID : Int
  msgAuthor : List ((Int × Int) × Int)
  chanGuild : List (Int × Int)
deriving DecidableEq, Repr

/-- What a `markRead` call produces: the new states map, the `UpdateEvent`s
posted (read-state copy and guild ID; `Unread` is always false there) and the
ack RPCs fired. -/
structure MarkReadOut where
  states : List (Int × ReadState)
  events : List (ReadState × Int)
  acks : List (Int × Int)
deriving DecidableEq, Repr

/-- In-place update of the record stored under channel `c` (the Go code
mutates through the map's pointer). -/
def replaceRS (states : List (Int × ReadState)) (c : Int) (rs : ReadState) :
    List (Int × ReadState) :=
  states.map (fun p => if p.1 = c then (c, rs) else p)

/-- Embedding of `markRead(chID, msgID, sendack)`: insert a zero-valued read state when
missing; return silently when `LastMessageID == msgID && MentionCount == 0`
(duplicate-ack suppression); otherwise set the last-seen ID, clear the
mention count, possibly fire an ack (only with `sendack`, a known message and
a foreign author — an unknown message returns early, skipping the event), and
post an `UpdateEvent` when the channel is known. -/
def markRead (env : ReadEnv) (states0 : List (Int × ReadState)) (c msg : Int)
    (sendack : Bool) : MarkReadOut :=
  let inserted : List (Int × ReadState) × ReadState :=
    match List.lookup c states0 with
    | some rs => (states0, rs)
    | none => ((c, ⟨c, 0, 0⟩) :: states0, ⟨c, 0, 0⟩)
  let states := inserted.1
  let rs := inserted.2
  if rs.lastMessageID = msg ∧ rs.mentionCount = 0 then ⟨states, [], []⟩
  else
    let rs' : ReadState := { rs with lastMessageID := msg, mentionCount := 0 }
    let states' := replaceRS states c rs'
    let emits : List (ReadState × Int) :=
      match List.lookup c env.chanGuild with
      | none => []
      | some gid => [(rs', gid)]
    let rest : List (ReadState × Int) × List (Int × Int) :=
      if sendack then
        match List.lookup (c, msg) env.msgAuthor with
        | none => ([], [])
        | some author => if author ≠ env.selfID then (emits, [(c, msg)]) else (emits, [])
      else (emits, [])
    ⟨states', rest.1, rest.2⟩

/-- The `MessageAckEvent` prehandler: `markRead(a.ChannelID, a.MessageID,
false)`. -/
def onMessageAck (env : ReadEnv) (states : List (Int × ReadState)) (c msg : Int) :
    MarkReadOut :=
  markRead env states c msg false

/-- Embedding of `ReadState(channelID)`: the stored entry, but only when its
`LastMessageID` is a valid snowflake; otherwise `nil`. -/
def readStateQuery (states : List (Int × ReadState)) (c : Int) : Option ReadState :=
  match List.lookup c states with
  | some s => if snowflakeIsValid s.lastMessageID then some s else none
  | none => none

/-! ### The mute index (`states/mute/mute.go`) and `MessageMentions` (`ningen.go`)

The mute state maps guild IDs to `gateway.UserGuildSetting` and channel IDs
to `gateway.UserChannelOverride`.  `time.Now()` is passed explicitly as
`now`.  `MessageMentions` reads the *raw* guild settings through
`GuildSettings` (which performs no mute-expiry evaluation); only the `Guild`
/ `Channel` predicates consult `muteConfigInvalid`. -/

/-- Embedding of `gateway.Notification` levels (`AllNotifications = 0`, `OnlyMentions`,
`NoNotifications`, `GuildDefaults`). -/
inductive NotifSetting where
  | allNotifications
  | onlyMentions
  | noNotifications
  | guildDefaults
deriving DecidableEq, Repr

/-- Embedding of `gateway.UserMuteConfig`, reduced to the `EndTime` the code reads. -/
structure UserMuteConfig where
  endTime : Int
deriving DecidableEq, Repr

/-- Embedding of `gateway.UserGuildSetting`, reduced to the fields the engine reads. -/
structure UserGuildSetting where
  muted : Bool
  suppressEveryone : Bool
  suppressRoles : Bool
  notifications : NotifSetting
  muteConfig : Option UserMuteConfig
deriving DecidableEq, Repr

/-- Embedding of `gateway.UserChannelOverride`, reduced to the fields the engine reads. -/
structure UserChannelOverride where
  muted : Bool
  notifications : NotifSetting
  muteConfig : Option UserMuteConfig
deriving DecidableEq, Repr

/-- The Go zero value of `gateway.UserGuildSetting` (notification level 0 is
`AllNotifications`). -/
def zeroUGS : UserGuildSetting :=
  ⟨false, false, false, .allNotifications, none⟩

/-- Embedding of `muteConfigInvalid`: no config means a permanent (valid) mute; a config
whose `EndTime` is before `now` is expired, hence invalid. -/
def muteConfigInvalid (cfg : Option UserMuteConfig) (now : Int) : Bool :=
  match cfg with
  | none => false
  | some c => decide (c.endTime < now)

/-- Embedding of `State.Guild(guildID, everyone)`: false when unknown or expired, else
`(!everyone && muted) || (everyone && suppressEveryone)`. -/
def guildMuted (guilds : List (Int × UserGuildSetting)) (gid : Int)
    (everyone : Bool) (now : Int) : Bool :=
  match List.lookup gid guilds with
  | none => false
  | some m =>
      if muteConfigInvalid m.muteConfig now then false
      else (!everyone && m.muted) || (everyone && m.suppressEveryone)

/-- The cabinet-side default notification level of a guild
(`discord.Guild.Notification`). -/
inductive GuildNotif where
  | allMessages
  | onlyMentions
  | other
deriving DecidableEq, Repr

/-- Channel types, as far as the DM fallback distinguishes them. -/
inductive ChanType where
  | dm
  | groupDM
  | guildText
deriving DecidableEq, Repr

/-- The cabinet fields of a channel that `MessageMentions` reads. -/
structure ChanInfo where
  guildID : Int
  typ : ChanType
deriving DecidableEq, Repr

/-- The state `MessageMentions` consults: the self user, blocked
relationships, the mute index's two maps, and the cabinet's channels and
guild defaults. -/
structure NotifEnv where
  meID : Option Int
  blocked : List Int
  guilds : List (Int × UserGuildSetting)
  channels : List (Int × UserChannelOverride)
  chanInfo : List (Int × ChanInfo)
  guildInfo : List (Int × GuildNotif)
deriving DecidableEq, Repr

/-- Embedding of `State.GuildSettings(guildID)`: the stored setting verbatim (no expiry
check), else a synthesized default inheriting the cabinet guild's
notification level (default all). -/
def guildSettingsOf (env : NotifEnv) (gid : Int) : UserGuildSetting :=
  match List.lookup gid env.guilds with
  | some s => s
  | none =>
      let noti := match List.lookup gid env.guildInfo with
        | some .allMessages => NotifSetting.allNotifications
        | some .onlyMentions => NotifSetting.onlyMentions
        | _ => NotifSetting.allNotifications
      ⟨false, false, false, noti, none⟩

/-- Embedding of `State.ChannelOverrides(channelID)`: the stored override verbatim, else a
synthesized override inheriting the guild's notification level
(`GuildDefaults` when the channel is unknown). -/
def channelOverridesOf (env : NotifEnv) (chID : Int) : UserChannelOverride :=
  match List.lookup chID env.channels with
  | some o => o
  | none =>
      let noti := match List.lookup chID env.chanInfo with
        | some ch => (guildSettingsOf env ch.guildID).notifications
        | none => NotifSetting.guildDefaults
      ⟨false, noti, none⟩

/-- A message, reduced to the fields `MessageMentions` reads. -/
structure Msg where
  authorID : Int
  channelID : Int
  guildID : Int
  mentionEveryone : Bool
  mentions : List Int
deriving DecidableEq, Repr

/-- The tail of `MessageMentions` after the channel-override switch falls
through: the guild-level switch (`GuildDefaults` falls through again), then
the DM/group-DM fallback, then the plain `mentions` flags.  Flags: bit 1 =
`MessageMentions`, bit 2 = `MessageNotifies`. -/
def afterChannelSwitch (env : NotifEnv) (msg : Msg) (mutedGuild : UserGuildSetting)
    (flags : Nat) : Nat :=
  if snowflakeIsValid msg.guildID then
    match mutedGuild.notifications with
    | .noNotifications => 0
    | .allNotifications => if !mutedGuild.muted then flags ||| 2 else flags
    | .onlyMentions => if flags ≠ 0 then flags ||| 2 else flags
    | .guildDefaults =>
        match List.lookup msg.channelID env.chanInfo with
        | some ch => if ch.typ = .dm ∨ ch.typ = .groupDM then flags ||| 2 else flags
        | none => flags
  else
    match List.lookup msg.channelID env.chanInfo with
    | some ch => if ch.typ = .dm ∨ ch.typ = .groupDM then flags ||| 2 else flags
    | none => flags

/-- Embedding of `MessageMentions` (`ningen.go`): self and blocked authors first,
`@everyone` against `SuppressEveryone`, then the raw guild `Muted`, then the
channel-override switch, then `afterChannelSwitch`. -/
def messageMentionsFlags (env : NotifEnv) (msg : Msg) : Nat :=
  match env.meID with
  | none => 0
  | some me =>
    if msg.authorID = me then 0
    else if env.blocked.contains msg.authorID then 0
    else
      let mutedGuild :=
        if snowflakeIsValid msg.guildID then guildSettingsOf env msg.guildID else zeroUGS
      if snowflakeIsValid msg.guildID && msg.mentionEveryone && !mutedGuild.suppressEveryone
      then 3
      else if snowflakeIsValid msg.guildID && mutedGuild.muted then 0
      else
        let flags : Nat := if msg.mentions.contains me then 1 else 0
        let mutedCh := channelOverridesOf env msg.channelID
        match mutedCh.notifications with
        | .noNotifications => 0
        | .allNotifications =>
            if mutedCh.muted then flags else afterChannelSwitch env msg mutedGuild flags
        | .onlyMentions => if flags ≠ 0 then flags ||| 2 else flags
        | .guildDefaults => afterChannelSwitch env msg mutedGuild flags

/-! ### The presence store (`nstore/presence.go`)

Two maps: `presences : userID → *Presence` (the fallback) and
`userGuilds : userID → (guildID → *Presence)`.  Pointer aliasing matters in
exactly one branch of `PresenceSet` (the fallback is overwritten in place and
shared with the new guild record); value semantics capture it because no
later path mutates through an aliased pointer — `guilds[guild] = &p` rebinds
the map entry. -/

/-- Embedding of `gateway.Presence`, reduced to identity plus the `GuildID` and a payload
(`Status`) to tell records apart. -/
structure Presence where
  userID : Int
  guildID : Int
  status : String
deriving DecidableEq, Repr

/-- The two maps of `PresenceStore`. -/
structure PresenceStore where
  presences : List (Int × Presence)
  userGuilds : List (Int × List (Int × Presence))
deriving DecidableEq, Repr

/-- Go map assignment `m[k] = v`, as an association-list update. -/
def mapSet {α : Type} (m : List (Int × α)) (k : Int) (v : α) : List (Int × α) :=
  (k, v) :: m.filter (fun q => q.1 != k)

/-- Embedding of `PresenceStore.PresenceSet(guild, p)`: first-ever presence for the user
becomes the fallback (no guild record); with an existing guild map the guild
record is set; when the guild map is first created, the fallback is
overwritten in place only if its own `GuildID` equals the guild being set. -/
def presenceSet (st : PresenceStore) (guild : Int) (p : Presence) : PresenceStore :=
  match List.lookup p.userID st.presences with
  | none => { st with presences := mapSet st.presences p.userID p }
  | some fallback =>
      match List.lookup p.userID st.userGuilds with
      | some guilds =>
          { st with userGuilds := mapSet st.userGuilds p.userID (mapSet guilds guild p) }
      | none =>
          if fallback.guildID = guild then
            { presences := mapSet st.presences p.userID p,
              userGuilds := mapSet st.userGuilds p.userID [(guild, p)] }
          else
            { st with userGuilds := mapSet st.userGuilds p.userID [(guild, p)] }

/-- Embedding of `PresenceStore.presence(guild, user)`: the guild-scoped record when
`guild` is valid and present, else the fallback (or nothing). -/
def presenceGet (st : PresenceStore) (guild user : Int) : Option Presence :=
  if snowflakeIsValid guild then
    match List.lookup user st.userGuilds with
    | some guilds =>
        match List.lookup guild guilds with
        | some p => some p
        | none => List.lookup user st.presences
    | none => List.lookup user st.presences
  else List.lookup user st.presences

/-! ### The summary engine (`states/summary/summary.go`)

The in-memory state maps `channelID → []gateway.ConversationSummary`, kept
sorted ascending by `EndID`.  `insertSummaries` uses
`slices.BinarySearchFunc` with the comparator `int(s.EndID - msgID)`; on a
sorted slice that search returns the lower-bound position and an exact-match
flag, which the recursive sorted insert-or-overwrite below reproduces (all
lists reachable from the empty state are sorted).  The final cap drops the
front, i.e. the lowest `EndID`s (`slices.Delete(s, 0, len-max)`). -/

/-- Embedding of `gateway.ConversationSummary`, reduced to its identity and sort key. -/
structure ConvSummary where
  id : Int
  endID : Int
deriving DecidableEq, Repr

/-- One binary-search insert: overwrite the entry with equal `EndID`, else
insert at the lower-bound position. -/
def insertSummary : List ConvSummary → ConvSummary → List ConvSummary
  | [], s => [s]
  | x :: xs, s =>
      if x.endID < s.endID then x :: insertSummary xs s
      else if x.endID = s.endID then s :: xs
      else s :: x :: xs

/-- Embedding of `insertSummaries(summaries, more...)`: insert each incoming summary, then
drop the front when the list exceeds `maxSummaries`. -/
def insertSummaries (maxS : Nat) (summaries more : List ConvSummary) : List ConvSummary :=
  let l := more.foldl insertSummary summaries
  if maxS < l.length then l.drop (l.length - maxS) else l

/-- The `ConversationSummaryUpdateEvent` sync handler:
`s.summaries[u.ChannelID] = insertSummaries(s.summaries[u.ChannelID],
u.Summaries...)` (a missing map entry reads as nil). -/
def applySummaryEvent (maxS : Nat) (st : List (Int × List ConvSummary))
    (ev : Int × List ConvSummary) : List (Int × List ConvSummary) :=
  mapSet st ev.1 (insertSummaries maxS ((List.lookup ev.1 st).getD []) ev.2)

/-- A sequence of summary events applied to the empty state. -/
def runSummaryEvents (maxS : Nat) (evs : List (Int × List ConvSummary)) :
    List (Int × List ConvSummary) :=
  evs.foldl (applySummaryEvent maxS) []

/-- Sorted strictly ascending by `EndID` (strictness gives at most one entry
per `EndID`). -/
def summariesOrdered (l : List ConvSummary) : Prop :=
  l.Pairwise (fun a b => a.endID < b.endID)

/-- The per-channel invariant: every channel's list is ordered and holds at
most `maxSummaries` entries. -/
def summaryInv (maxS : Nat) (st : List (Int × List ConvSummary)) : Prop :=
  ∀ ch, summariesOrdered ((List.lookup ch st).getD []) ∧
    ((List.lookup ch st).getD []).length ≤ maxS

/-! ### Theorems -/

set_option maxRecDepth 100000 in
/-- Sanity anchor for the embedding: on the overwrite set of the repository's
own `TestComputeListID`, the embedded `computeListID` returns the value the
test expects, `"3720633681"`. -/
theorem computeListID_matches_repo_test :
    computeListID
      [⟨361910177961738242, 0, 1024⟩,
       ⟨361919857836425217, 117760, 0⟩,
       ⟨532359766694035457, 10240, 0⟩,
       ⟨564702909519101952, 0, 93184⟩,
       ⟨578035907232530432, 0, 2112⟩,
       ⟨697931217521082455, 1024, 0⟩] = "3720633681" := by
  decide

/-- C1 counterexample: swapping two allow-classified overwrites is a
permutation of the overwrite list, yet `computeListID` returns different
strings, because the code never sorts `allows`/`denies` — the hash input
follows the supplied order. -/
theorem computeListID_not_permutation_invariant :
    ([⟨2, 0x400, 0⟩, ⟨1, 0x400, 0⟩] : List Overwrite).Perm
      [⟨1, 0x400, 0⟩, ⟨2, 0x400, 0⟩] ∧
    computeListID [⟨2, 0x400, 0⟩, ⟨1, 0x400, 0⟩] ≠
      computeListID [⟨1, 0x400, 0⟩, ⟨2, 0x400, 0⟩] := by
  constructor
  · decide
  · decide

/-- C1 (amended): the list ID depends only on the classified allow and deny
sequences in input order; in particular it is unchanged by any permutation of
the overwrites that preserves the relative order of the allow-classified
overwrites and of the deny-classified overwrites. -/
theorem computeListID_respects_classified_sequences
    (l₁ l₂ : List Overwrite)
    (h : collectOverwrites l₁ = collectOverwrites l₂) :
    computeListID l₁ = computeListID l₂ := by
  unfold computeListID
  rw [h]

/-- Witness for C1's amended theorem: moving a deny overwrite across an allow
overwrite keeps both classified sequences, hence the list ID, unchanged. -/
theorem computeListID_respects_classified_sequences_witness :
    collectOverwrites [⟨1, 0x400, 0⟩, ⟨5, 0, 0x400⟩, ⟨2, 0x400, 0⟩] =
      collectOverwrites [⟨1, 0x400, 0⟩, ⟨2, 0x400, 0⟩, ⟨5, 0, 0x400⟩] ∧
    computeListID [⟨1, 0x400, 0⟩, ⟨5, 0, 0x400⟩, ⟨2, 0x400, 0⟩] =
      computeListID [⟨1, 0x400, 0⟩, ⟨2, 0x400, 0⟩, ⟨5, 0, 0x400⟩] :=
  ⟨by decide, computeListID_respects_classified_sequences _ _ (by decide)⟩

/-- C2 counterexample: an `INVALIDATE{range:[0,1]}` op on an empty slot
vector reaches past the length with its capture `ml.items[0:1]`.  On the
list's actual starting state (a nil slice, capacity 0) that slicing panics;
on an emptied vector with spare capacity it silently captures stale
backing-array contents.  In neither scenario is the op "logged via the error
callback" and "skipped" — the error callback does not fire on this path at
all — so the claimed behaviour occurs under no capacity. -/
theorem onListUpdate_invalidate_oob_not_skipped :
    onListUpdateItems [] [.invalidate 0 1 [], .update 0 ⟨some 3, none⟩] =
      RunResult.capDependent := by
  decide

/-- C2 (amended): an `INSERT`/`UPDATE`/`DELETE` op whose index fails the
bounds check is skipped with one error-callback invocation and the remaining
ops run on the unchanged vector; but an `INVALIDATE` whose (well-formed)
range end exceeds the current length leaves that regime — depending on the
backing array's spare capacity it either panics or silently captures stale
contents, and it is never logged and skipped. -/
theorem onListUpdate_indexed_oob_skipped :
    (∀ (pos : Nat) (items : List ListItem) (op : MLOp) (rest : List MLOp),
        indexedOutOfBounds op items = true →
        applyOpsAux pos items (op :: rest) =
          (match applyOpsAux (pos + 1) items rest with
           | RunResult.ok l f e => RunResult.ok l (op :: f) (1 + e)
           | r => r)) ∧
    (∀ (pos : Nat) (items : List ListItem) (start stop : Int)
        (its : List ListItem) (rest : List MLOp),
        0 ≤ start → start ≤ stop → (items.length : Int) < stop →
        applyOpsAux pos items (.invalidate start stop its :: rest) =
          RunResult.capDependent) := by
  constructor
  · intro pos items op rest h
    cases op with
    | sync start stop its => simp [indexedOutOfBounds] at h
    | invalidate start stop its => simp [indexedOutOfBounds] at h
    | insert i it =>
        simp only [applyOpsAux, opApply, h, if_true]
        cases hrec : applyOpsAux (pos + 1) items rest with
        | ok l f e => rfl
        | panic => rfl
        | capDependent => rfl
    | update i it =>
        simp only [applyOpsAux, opApply, h, if_true]
        cases hrec : applyOpsAux (pos + 1) items rest with
        | ok l f e => rfl
        | panic => rfl
        | capDependent => rfl
    | delete i it =>
        simp only [applyOpsAux, opApply, h, if_true]
        cases hrec : applyOpsAux (pos + 1) items rest with
        | ok l f e => rfl
        | panic => rfl
        | capDependent => rfl
  · intro pos items start stop its rest h0 h1 h2
    simp only [applyOpsAux, opApply]
    rw [if_neg (by omega), if_neg (by omega)]

/-- Witness for C2's amended theorem: an `UPDATE` at index 5 of a one-item
vector is skipped with an error, and an `INVALIDATE` of `[0,1]` on an empty
vector leaves the determined log-and-skip regime. -/
theorem onListUpdate_indexed_oob_skipped_witness :
    applyOpsAux 0 [ListItem.mk (some 1) none] [.update 5 nilItem] =
      (match applyOpsAux 1 [ListItem.mk (some 1) none] [] with
       | RunResult.ok l f e => RunResult.ok l (MLOp.update 5 nilItem :: f) (1 + e)
       | r => r) ∧
    applyOpsAux 0 [] [.invalidate 0 1 []] = RunResult.capDependent :=
  ⟨onListUpdate_indexed_oob_skipped.1 0 _ _ _ (by decide),
   onListUpdate_indexed_oob_skipped.2 0 [] 0 1 [] [] (by decide) (by decide) (by decide)⟩

/-- C3: applying the single op `DELETE{index:1}` (event position 0) to the
two-slot vector `[a, b]` removes slot 1 correctly, but the op written back
for later observers records `a = ml.items[0]` — the item at the op's position
in `ev.Ops` — not `b`, the item that occupied slot 1 before removal. -/
theorem onListUpdate_delete_records_loop_index :
    onListUpdateItems [⟨some 1, none⟩, ⟨some 2, none⟩] [.delete 1 nilItem] =
      RunResult.ok [⟨some 1, none⟩] [.delete 1 ⟨some 1, none⟩] 0 ∧
    goGet [⟨some 1, none⟩, ⟨some 2, none⟩] 1 = some ⟨some 2, none⟩ ∧
    (⟨some 1, none⟩ : ListItem) ≠ ⟨some 2, none⟩ := by
  refine ⟨by decide, by decide, by decide⟩

/-- C4 counterexample, two calls with `k > 0` violating the claim: when the
channel's last fetched chunk is already `k` (here `k = 1`),
`RequestMemberList` returns `nil`, which contains no window at all — in
particular not `[0,99]`; and when a known member list caps the request (here
`TotalVisible() = 150`, so `total = 1`, against `k = 2`), a truncated
*non-nil* list `[[0,99]]` is returned, whose largest window ends at 99 rather
than at `k·100+99 = 299`. -/
theorem requestMemberList_repeat_nil_or_capped_truncated :
    (requestMemberList (some 1) none 1).2 = none ∧
    requestMemberList none (some 150) 2 = (some 2, some [(0, 99)]) ∧
    ((0 : Int), (99 : Int)) ≠ ((2 * 100 : Int), (2 * 100 + 99 : Int)) := by
  refine ⟨by decide, by decide, by decide⟩

/-- Window shape of `requestCore` when nothing caps or cancels the request. -/
theorem requestCore_windows (start k total : Int) (hk : 0 < k)
    (hstart : start ≤ k + 1) (htot : total = -1 ∨ k + 1 ≤ total) :
    ∃ cs, (requestCore start k total).2 = some cs ∧
      (0, 99) ∈ cs ∧
      cs.length ≤ maxMemberChunk + 1 ∧
      cs.getLast? = some (k * 100, k * 100 + 99) := by
  have hc2 : (if total > -1 ∧ k + 1 > total then total else k + 1) = k + 1 := by
    rcases htot with h | h
    · rw [if_neg (by omega)]
    · rw [if_neg (by omega)]
  simp only [requestCore, hc2]
  rw [if_neg (show ¬ k + 1 < start by omega)]
  by_cases hk1 : k = 1
  · subst hk1
    exact ⟨[(0, 99), (100, 199)], by decide, by decide, by decide, by decide⟩
  · have hk2 : 2 ≤ k := by omega
    have hs1 : (if k + 1 - (maxMemberChunk : Int) < 1 then 1
        else k + 1 - (maxMemberChunk : Int)) = k - 1 := by
      rw [show ((maxMemberChunk : Nat) : Int) = 2 from by norm_num [maxMemberChunk]]
      rw [if_neg (by omega)]
      omega
    rw [hs1]
    have hn : (k + 1 - (k - 1)).toNat = 2 := by omega
    rw [hn]
    have hcw : chunkWindows (k - 1) 2 =
        [((k - 1) * 100, (k - 1) * 100 + 99), ((k - 1 + 1) * 100, (k - 1 + 1) * 100 + 99)] := by
      simp [chunkWindows, List.range_succ]
    rw [hcw, show k - 1 + 1 = k from by omega]
    exact ⟨[(0, 99), ((k - 1) * 100, (k - 1) * 100 + 99), (k * 100, k * 100 + 99)],
      rfl, by simp, by simp [maxMemberChunk], rfl⟩

/-- C4 (amended): when `k > 0`, the previously fetched chunk differs from `k`
and does not exceed `k + 1`, and no known member-list total caps the request,
the returned window set contains `[0,99]`, has at most `MaxMemberChunk + 1`
ranges, and its largest window ends at `k·100 + 99`; a repeated request for
the already-fetched chunk, a jump back by more than one chunk, or a capping
total instead yields `nil`. -/
theorem requestMemberList_window_bounds
    (prior : Option Int) (total0 : Option Nat) (k : Int) (hk : 0 < k)
    (hprior : prior = none ∨ ∃ s, prior = some s ∧ s ≠ k ∧ s ≤ k + 1)
    (htotal : total0 = none ∨ ∃ t, total0 = some t ∧ k + 1 ≤ ((t / 100 : Nat) : Int)) :
    ∃ cs, (requestMemberList prior total0 k).2 = some cs ∧
      (0, 99) ∈ cs ∧
      cs.length ≤ maxMemberChunk + 1 ∧
      cs.getLast? = some (k * 100, k * 100 + 99) := by
  rcases htotal with h | ⟨t, ht, htk⟩
  · subst h
    rcases hprior with h2 | ⟨s, hs, hsk, hsle⟩
    · subst h2
      exact requestCore_windows 0 k (-1) hk (by omega) (Or.inl rfl)
    · subst hs
      simp only [requestMemberList]
      rw [if_neg (show ¬ k = s by omega)]
      exact requestCore_windows s k (-1) hk hsle (Or.inl rfl)
  · subst ht
    rcases hprior with h2 | ⟨s, hs, hsk, hsle⟩
    · subst h2
      exact requestCore_windows 0 k _ hk (by omega) (Or.inr htk)
    · subst hs
      simp only [requestMemberList]
      rw [if_neg (show ¬ k = s by omega)]
      exact requestCore_windows s k _ hk hsle (Or.inr htk)

/-- Witness for C4's amended theorem: the first request for chunk 1 of a
channel with no known list yields `[[0,99],[100,199]]`-shaped windows. -/
theorem requestMemberList_window_bounds_witness :
    ∃ cs, (requestMemberList none none 1).2 = some cs ∧
      (0, 99) ∈ cs ∧
      cs.length ≤ maxMemberChunk + 1 ∧
      cs.getLast? = some (1 * 100, 1 * 100 + 99) :=
  requestMemberList_window_bounds none none 1 (by decide) (Or.inl rfl) (Or.inl rfl)

/-- C7 counterexample: two back-to-back `RequestMember` calls for distinct
absent users send two outbound commands, each carrying a single user ID —
never one command with both. -/
theorem requestMember_sends_two_single_requests :
    (requestMember (requestMember ⟨[], [], []⟩ 1 2) 1 3).sent = [(1, [2]), (1, [3])] := by
  decide

/-- C7 (amended): every `RequestMember` call for a member that is neither
stored nor pending appends exactly one outbound command containing exactly
that one user ID, regardless of how recently other calls were made; a call
for a pending member sends nothing. -/
theorem requestMember_no_coalescing (st : MemberReqState) (g u : Int) :
    ((g, u) ∉ st.stored → (g, u) ∉ st.reqing →
      (requestMember st g u).sent = st.sent ++ [(g, [u])]) ∧
    ((g, u) ∈ st.reqing → requestMember st g u = st) := by
  constructor
  · intro h1 h2
    simp [requestMember, h1, h2]
  · intro h
    by_cases h1 : (g, u) ∈ st.stored
    · simp [requestMember, h1]
    · simp [requestMember, h1, h]

/-- Witness for C7's amended theorem: from the empty state, requesting user 2
in guild 1 sends `[(1, [2])]`; requesting it again while pending changes
nothing. -/
theorem requestMember_no_coalescing_witness :
    (requestMember ⟨[], [], []⟩ 1 2).sent = [] ++ [(1, [2])] ∧
    requestMember ⟨[], [(1, 2)], []⟩ 1 2 = ⟨[], [(1, 2)], []⟩ :=
  ⟨(requestMember_no_coalescing ⟨[], [], []⟩ 1 2).1 (by decide) (by decide),
   (requestMember_no_coalescing ⟨[], [(1, 2)], []⟩ 1 2).2 (by decide)⟩

/-- Keyed lookup after a keyed replacement. -/
theorem lookup_replaceRS (st : List (Int × ReadState)) (c : Int) (rs : ReadState) :
    List.lookup c (replaceRS st c rs) = (List.lookup c st).map (fun _ => rs) := by
  induction st with
  | nil => rfl
  | cons p rest ih =>
      obtain ⟨a, b⟩ := p
      by_cases h : a = c
      · subst h
        simp only [replaceRS, List.map_cons, if_pos rfl]
        simp [List.lookup]
      · simp only [replaceRS, List.map_cons, if_neg h] at *
        simp only [List.lookup]
        rw [show (c == a) = false from by simp [Ne.symm h]]
        exact ih

/-- C5: after `MarkRead(c, m)` the stored read state has `LastMessageID = m`
and `MentionCount = 0`, and a subsequent gateway `MessageAck(c, m)` leaves
the states untouched, emits no `UpdateEvent` and sends no ack RPC. -/
theorem markRead_then_ack_suppressed (env : ReadEnv)
    (states : List (Int × ReadState)) (c msg : Int) :
    (∃ rs, List.lookup c (markRead env states c msg true).states = some rs ∧
        rs.lastMessageID = msg ∧ rs.mentionCount = 0) ∧
    onMessageAck env (markRead env states c msg true).states c msg =
      ⟨(markRead env states c msg true).states, [], []⟩ := by
  cases hL : List.lookup c states with
  | none =>
      by_cases hm : msg = 0
      · subst hm
        have h1 : (markRead env states c 0 true).states = (c, ⟨c, 0, 0⟩) :: states := by
          simp [markRead, hL]
        have h2 : List.lookup c ((c, (⟨c, 0, 0⟩ : ReadState)) :: states) = some ⟨c, 0, 0⟩ := by
          simp [List.lookup]
        refine ⟨⟨⟨c, 0, 0⟩, by rw [h1, h2], rfl, rfl⟩, ?_⟩
        rw [h1]
        simp [onMessageAck, markRead, h2]
      · have h1 : (markRead env states c msg true).states =
            replaceRS ((c, ⟨c, 0, 0⟩) :: states) c ⟨c, msg, 0⟩ := by
          simp only [markRead, hL]
          rw [if_neg (fun h => hm h.1.symm)]
        have h2 : List.lookup c (replaceRS ((c, (⟨c, 0, 0⟩ : ReadState)) :: states) c ⟨c, msg, 0⟩) =
            some ⟨c, msg, 0⟩ := by
          rw [lookup_replaceRS]
          simp [List.lookup]
        refine ⟨⟨⟨c, msg, 0⟩, by rw [h1, h2], rfl, rfl⟩, ?_⟩
        rw [h1]
        simp [onMessageAck, markRead, h2]
  | some rs0 =>
      by_cases hc : rs0.lastMessageID = msg ∧ rs0.mentionCount = 0
      · have h1 : (markRead env states c msg true).states = states := by
          simp [markRead, hL, hc]
        refine ⟨⟨rs0, by rw [h1, hL], hc.1, hc.2⟩, ?_⟩
        rw [h1]
        simp [onMessageAck, markRead, hL, hc]
      · have h1 : (markRead env states c msg true).states =
            replaceRS states c { rs0 with lastMessageID := msg, mentionCount := 0 } := by
          simp only [markRead, hL]
          rw [if_neg hc]
        have h2 : List.lookup c (replaceRS states c
            { rs0 with lastMessageID := msg, mentionCount := 0 }) =
            some { rs0 with lastMessageID := msg, mentionCount := 0 } := by
          rw [lookup_replaceRS, hL]
          rfl
        refine ⟨⟨{ rs0 with lastMessageID := msg, mentionCount := 0 },
          by rw [h1, h2], rfl, rfl⟩, ?_⟩
        rw [h1]
        simp [onMessageAck, markRead, h2]

/-- C10: `ReadState(channelID)` returns `nil` both when no entry is stored
for the channel and when the stored entry's `LastMessageID` is the invalid
zero snowflake. -/
theorem readState_nil_on_missing_or_invalid (states : List (Int × ReadState)) (c : Int) :
    (List.lookup c states = none → readStateQuery states c = none) ∧
    (∀ s, List.lookup c states = some s → s.lastMessageID = 0 →
      readStateQuery states c = none) := by
  constructor
  · intro h
    simp [readStateQuery, h]
  · intro s h h0
    simp [readStateQuery, h, h0, snowflakeIsValid]

/-- Witness for C10: a stored but never-acked read state (zero last-seen ID)
is reported as absent, and so is a channel with no entry. -/
theorem readState_nil_on_missing_or_invalid_witness :
    readStateQuery [(5, ⟨5, 0, 3⟩)] 5 = none ∧
    readStateQuery [(5, ⟨5, 0, 3⟩)] 6 = none :=
  ⟨(readState_nil_on_missing_or_invalid [(5, ⟨5, 0, 3⟩)] 5).2 ⟨5, 0, 3⟩ (by decide) rfl,
   (readState_nil_on_missing_or_invalid [(5, ⟨5, 0, 3⟩)] 6).1 (by decide)⟩

/-- C6 counterexample: guild 10 is muted with a mute config expired at
evaluation time (`endTime = 100 < now = 200`).  `Guild(10, everyone=false)`
is indeed false, but `MessageMentions` on a mentioning message in that guild
returns 0 — and returns `MENTIONS|NOTIFIES` once the stale `Muted` flag is
cleared — so the 0 is on account of the expired guild mute. -/
theorem messageMentions_ignores_mute_expiry :
    guildMuted [(10, ⟨true, false, false, .allNotifications, some ⟨100⟩⟩)] 10 false 200 = false ∧
    messageMentionsFlags
      ⟨some 1, [], [(10, ⟨true, false, false, .allNotifications, some ⟨100⟩⟩)], [],
        [(7, ⟨10, .guildText⟩)], []⟩
      ⟨2, 7, 10, false, [1]⟩ = 0 ∧
    messageMentionsFlags
      ⟨some 1, [], [(10, ⟨false, false, false, .allNotifications, some ⟨100⟩⟩)], [],
        [(7, ⟨10, .guildText⟩)], []⟩
      ⟨2, 7, 10, false, [1]⟩ = 3 := by
  refine ⟨by decide, by decide, by decide⟩

/-- C6 (amended): an expired `muteConfig.endTime` does convert a muted state
to not-muted in the mute index's `Guild` predicate, but `MessageMentions`
reads the stored `Muted` flag through `GuildSettings` without expiry
evaluation, so a muted guild (expired or not) still forces a 0 verdict for
any non-everyone message from a foreign, unblocked author. -/
theorem guildMuted_expiry_but_mentions_raw :
    (∀ (guilds : List (Int × UserGuildSetting)) (gid now : Int)
        (s : UserGuildSetting) (cfg : UserMuteConfig),
        List.lookup gid guilds = some s → s.muteConfig = some cfg →
        cfg.endTime < now → guildMuted guilds gid false now = false) ∧
    (∀ (env : NotifEnv) (msg : Msg) (me : Int) (s : UserGuildSetting),
        env.meID = some me → msg.authorID ≠ me →
        env.blocked.contains msg.authorID = false →
        snowflakeIsValid msg.guildID = true →
        List.lookup msg.guildID env.guilds = some s →
        s.muted = true → msg.mentionEveryone = false →
        messageMentionsFlags env msg = 0) := by
  constructor
  · intro guilds gid now s cfg h1 h2 h3
    simp [guildMuted, h1, h2, muteConfigInvalid, h3]
  · intro env msg me s hme hne hbl hvalid hlook hmut hmE
    simp only [messageMentionsFlags, hme]
    rw [if_neg hne]
    simp only [hbl, Bool.false_eq_true, if_false]
    simp [hvalid, guildSettingsOf, hlook, hmut, hmE]

/-- Witness for C6's amended theorem, instantiated at the counterexample
state: the expired mute is unmuted for `Guild`, yet `MessageMentions` yields
0. -/
theorem guildMuted_expiry_but_mentions_raw_witness :
    guildMuted [(10, ⟨true, false, false, .allNotifications, some ⟨100⟩⟩)] 10 false 200 = false ∧
    messageMentionsFlags
      ⟨some 1, [], [(10, ⟨true, false, false, .allNotifications, some ⟨100⟩⟩)], [],
        [(7, ⟨10, .guildText⟩)], []⟩
      ⟨2, 7, 10, false, [1]⟩ = 0 :=
  ⟨guildMuted_expiry_but_mentions_raw.1 _ 10 200
     ⟨true, false, false, .allNotifications, some ⟨100⟩⟩ ⟨100⟩ (by decide) rfl (by decide),
   guildMuted_expiry_but_mentions_raw.2 _ _ 1 ⟨true, false, false, .allNotifications, some ⟨100⟩⟩
     rfl (by decide) (by decide) (by decide) (by decide) rfl rfl⟩

/-- Assignment followed by lookup of the same key. -/
theorem lookup_mapSet_self {α : Type} (m : List (Int × α)) (k : Int) (v : α) :
    List.lookup k (mapSet m k v) = some v := by
  simp [mapSet, List.lookup]

/-- C9 counterexample: set presence `p₁` (its own guild 5), then `p₂` under
guild 7.  A guild-less query returns the fallback `p₁` — the *first* presence
set — not the most recent `p₂`, while the guild-7 query does return `p₂`. -/
theorem presence_fallback_not_newest :
    presenceGet (presenceSet (presenceSet ⟨[], []⟩ 5 ⟨1, 5, "online"⟩) 7 ⟨1, 7, "dnd"⟩) 0 1 =
      some ⟨1, 5, "online"⟩ ∧
    presenceGet (presenceSet (presenceSet ⟨[], []⟩ 5 ⟨1, 5, "online"⟩) 7 ⟨1, 7, "dnd"⟩) 7 1 =
      some ⟨1, 7, "dnd"⟩ ∧
    (⟨1, 5, "online"⟩ : Presence) ≠ ⟨1, 7, "dnd"⟩ := by
  refine ⟨by decide, by decide, by decide⟩

/-- C9 (amended): `Presence(g, u)` returns the guild-scoped record when `g`
is valid and such a record exists, else the fallback; the fallback is the
*first* presence ever set for the user, not the most recent one — a
`PresenceSet` for a user with an existing guild map never touches the
fallback, and one that creates the guild map leaves the fallback alone unless
the fallback's own guild ID equals the guild being set. -/
theorem presence_lookup_and_fallback :
    (∀ (st : PresenceStore) (g u : Int) (guilds : List (Int × Presence)) (p : Presence),
        snowflakeIsValid g = true → List.lookup u st.userGuilds = some guilds →
        List.lookup g guilds = some p → presenceGet st g u = some p) ∧
    (∀ (st : PresenceStore) (g : Int) (p : Presence),
        List.lookup p.userID st.presences = none →
        List.lookup p.userID (presenceSet st g p).presences = some p) ∧
    (∀ (st : PresenceStore) (g : Int) (p f : Presence)
        (guilds : List (Int × Presence)),
        List.lookup p.userID st.presences = some f →
        List.lookup p.userID st.userGuilds = some guilds →
        (presenceSet st g p).presences = st.presences) ∧
    (∀ (st : PresenceStore) (g : Int) (p f : Presence),
        List.lookup p.userID st.presences = some f →
        List.lookup p.userID st.userGuilds = none →
        f.guildID ≠ g →
        (presenceSet st g p).presences = st.presences) := by
  refine ⟨?_, ?_, ?_, ?_⟩
  · intro st g u guilds p hv h1 h2
    simp [presenceGet, hv, h1, h2]
  · intro st g p h
    simp [presenceSet, h, lookup_mapSet_self]
  · intro st g p f guilds h1 h2
    simp [presenceSet, h1, h2]
  · intro st g p f h1 h2 hne
    simp only [presenceSet, h1, h2]
    rw [if_neg hne]

/-- Witness for C9's amended theorem at concrete stores: a guild-scoped hit,
a first set becoming the fallback, and two later sets leaving the fallback
unchanged. -/
theorem presence_lookup_and_fallback_witness :
    presenceGet ⟨[(1, ⟨1, 5, "x"⟩)], [(1, [(7, ⟨1, 7, "y"⟩)])]⟩ 7 1 = some ⟨1, 7, "y"⟩ ∧
    List.lookup (1 : Int) (presenceSet ⟨[], []⟩ 5 ⟨1, 5, "x"⟩).presences = some ⟨1, 5, "x"⟩ ∧
    (presenceSet ⟨[(1, ⟨1, 5, "x"⟩)], [(1, [(7, ⟨1, 7, "y"⟩)])]⟩ 9 ⟨1, 9, "z"⟩).presences =
      [(1, ⟨1, 5, "x"⟩)] ∧
    (presenceSet ⟨[(1, ⟨1, 5, "x"⟩)], []⟩ 9 ⟨1, 9, "z"⟩).presences = [(1, ⟨1, 5, "x"⟩)] :=
  ⟨presence_lookup_and_fallback.1 _ 7 1 [(7, ⟨1, 7, "y"⟩)] ⟨1, 7, "y"⟩ (by decide)
     (by decide) (by decide),
   presence_lookup_and_fallback.2.1 ⟨[], []⟩ 5 ⟨1, 5, "x"⟩ (by decide),
   presence_lookup_and_fallback.2.2.1 _ 9 ⟨1, 9, "z"⟩ ⟨1, 5, "x"⟩ [(7, ⟨1, 7, "y"⟩)]
     (by decide) (by decide),
   presence_lookup_and_fallback.2.2.2 _ 9 ⟨1, 9, "z"⟩ ⟨1, 5, "x"⟩ (by decide) (by decide)
     (by decide)⟩

/-- Everything in an insert result is the new summary or an old entry. -/
theorem mem_insertSummary (l : List ConvSummary) (s y : ConvSummary)
    (h : y ∈ insertSummary l s) : y = s ∨ y ∈ l := by
  induction l with
  | nil =>
      simp [insertSummary] at h
      exact Or.inl h
  | cons x xs ih =>
      by_cases h1 : x.endID < s.endID
      · simp only [insertSummary, if_pos h1] at h
        rcases List.mem_cons.1 h with h2 | h2
        · exact Or.inr (h2 ▸ List.mem_cons_self x xs)
        · rcases ih h2 with h3 | h3
          · exact Or.inl h3
          · exact Or.inr (List.mem_cons_of_mem x h3)
      · by_cases h2 : x.endID = s.endID
        · simp only [insertSummary, if_neg h1, if_pos h2] at h
          rcases List.mem_cons.1 h with h3 | h3
          · exact Or.inl h3
          · exact Or.inr (List.mem_cons_of_mem x h3)
        · simp only [insertSummary, if_neg h1, if_neg h2] at h
          rcases List.mem_cons.1 h with h3 | h3
          · exact Or.inl h3
          · exact Or.inr h3

/-- Inserting preserves the strict order. -/
theorem insertSummary_ordered (l : List ConvSummary) (s : ConvSummary)
    (h : summariesOrdered l) : summariesOrdered (insertSummary l s) := by
  induction l with
  | nil => simp [insertSummary, summariesOrdered]
  | cons x xs ih =>
      rw [summariesOrdered, List.pairwise_cons] at h
      obtain ⟨hx, hxs⟩ := h
      by_cases h1 : x.endID < s.endID
      · rw [summariesOrdered, insertSummary, if_pos h1, List.pairwise_cons]
        refine ⟨?_, ih hxs⟩
        intro y hy
        rcases mem_insertSummary xs s y hy with h2 | h2
        · exact h2 ▸ h1
        · exact hx y h2
      · by_cases h2 : x.endID = s.endID
        · rw [summariesOrdered, insertSummary, if_neg h1, if_pos h2, List.pairwise_cons]
          exact ⟨fun y hy => h2 ▸ hx y hy, hxs⟩
        · rw [summariesOrdered, insertSummary, if_neg h1, if_neg h2, List.pairwise_cons]
          refine ⟨?_, List.pairwise_cons.2 ⟨hx, hxs⟩⟩
          intro y hy
          have hsx : s.endID < x.endID := by omega
          rcases List.mem_cons.1 hy with h3 | h3
          · exact h3 ▸ hsx
          · exact lt_trans hsx (hx y h3)

/-- Folding inserts preserves the strict order. -/
theorem foldl_insertSummary_ordered (more : List ConvSummary) :
    ∀ l, summariesOrdered l → summariesOrdered (more.foldl insertSummary l) := by
  induction more with
  | nil => intro l h; exact h
  | cons m ms ih =>
      intro l h
      exact ih (insertSummary l m) (insertSummary_ordered l m h)

/-- Applying `insertSummaries` yields an ordered list of at most
`maxSummaries` entries. -/
theorem insertSummaries_ordered_bounded (maxS : Nat) (l more : List ConvSummary)
    (h : summariesOrdered l) :
    summariesOrdered (insertSummaries maxS l more) ∧
      (insertSummaries maxS l more).length ≤ maxS := by
  have hord : summariesOrdered (more.foldl insertSummary l) :=
    foldl_insertSummary_ordered more l h
  rw [insertSummaries]
  by_cases hlen : maxS < (more.foldl insertSummary l).length
  · rw [if_pos hlen]
    constructor
    · exact List.Pairwise.sublist (List.drop_sublist _ _) hord
    · rw [List.length_drop]
      omega
  · rw [if_neg hlen]
    exact ⟨hord, by omega⟩

/-- Lookup under a different key sees through a Go map assignment. -/
theorem lookup_mapSet_ne {α : Type} (m : List (Int × α)) (k ch : Int) (v : α)
    (h : ch ≠ k) : List.lookup ch (mapSet m k v) = List.lookup ch m := by
  have hfilter : ∀ (m' : List (Int × α)),
      List.lookup ch (m'.filter (fun q => q.1 != k)) = List.lookup ch m' := by
    intro m'
    induction m' with
    | nil => rfl
    | cons q rest ih =>
        obtain ⟨a, b⟩ := q
        by_cases hak : a = k
        · subst hak
          have : ((a, b).1 != a) = false := by simp
          rw [List.filter_cons, this]
          simp only [List.lookup]
          rw [show (ch == a) = false from by simp [h]]
          exact ih
        · have : ((a, b).1 != k) = true := by simp [hak]
          rw [List.filter_cons, this]
          simp only [List.lookup]
          cases hca : (ch == a) with
          | true => rfl
          | false => exact ih
  simp only [mapSet, List.lookup]
  rw [show (ch == k) = false from by simp [h]]
  exact hfilter m

/-- One event preserves the per-channel invariant. -/
theorem applySummaryEvent_inv (maxS : Nat) (st : List (Int × List ConvSummary))
    (ev : Int × List ConvSummary) (h : summaryInv maxS st) :
    summaryInv maxS (applySummaryEvent maxS st ev) := by
  intro ch
  by_cases hch : ch = ev.1
  · subst hch
    rw [applySummaryEvent, lookup_mapSet_self]
    simp only [Option.getD_some]
    exact insertSummaries_ordered_bounded maxS _ ev.2 (h ev.1).1
  · rw [applySummaryEvent, lookup_mapSet_ne _ _ _ _ hch]
    exact h ch

/-- C8: after any sequence of `ConversationSummaryUpdate` events, every
channel's in-memory list is strictly ascending by `EndID` (hence at most one
entry per `EndID`) with at most `maxSummaries` entries; the arrival order
11, 13, 12, 13 leaves `[11, 12, 13]` with the second 13 overwriting the
first; and with `maxSummaries = 2` the lowest `EndID` is dropped first. -/
theorem summaries_sorted_bounded :
    (∀ (maxS : Nat) (evs : List (Int × List ConvSummary)),
        summaryInv maxS (runSummaryEvents maxS evs)) ∧
    (List.lookup 1 (runSummaryEvents 10
        [(1, [⟨100, 11⟩]), (1, [⟨101, 13⟩]), (1, [⟨102, 12⟩]), (1, [⟨103, 13⟩])])).getD []
      = [⟨100, 11⟩, ⟨102, 12⟩, ⟨103, 13⟩] ∧
    (List.lookup 1 (runSummaryEvents 2
        [(1, [⟨100, 11⟩]), (1, [⟨101, 13⟩]), (1, [⟨102, 12⟩])])).getD []
      = [⟨102, 12⟩, ⟨101, 13⟩] := by
  refine ⟨?_, by decide, by decide⟩
  intro maxS evs
  rw [runSummaryEvents]
  have base : summaryInv maxS [] := by
    intro ch
    exact ⟨List.Pairwise.nil, Nat.zero_le _⟩
  revert base
  generalize ([] : List (Int × List ConvSummary)) = st
  intro base
  induction evs generalizing st with
  | nil => exact base
  | cons e es ih =>
      exact ih _ (applySummaryEvent_inv maxS st e base)

end Ningen
